import Mathlib

/-!
Verification of the two hemorrhage-detection pipelines of `app.py`
(fundus-image hemorrhage detection, Method 1 "Vessel + Hemorrhage
Detection" and Method 2 "Step-wise Hemorrhage Detection").

The pipelines are shallowly embedded: 8-bit pixels are natural numbers,
images are total functions on `Fin h × Fin w` index grids, floating-point
intermediates are exact rationals (or reals for the gaussian local
threshold, stated relationally), and the two third-party filters whose
internals no stated property depends on (the Frangi vesselness response
and CLAHE) are abstracted as explicit function parameters, following the
design note that library filters are treated as named algorithmic steps
with explicit parameters.
-/

namespace HemDetect

/-- An 8-bit Blue-Green-Red pixel, channel order as cv2 decodes it. -/
abbrev Pix3 := ℕ × ℕ × ℕ

/-- A decoded 3-channel color raster: a successful `cv2.imread` always
yields a non-empty, 3-channel, 8-bit image, hence the bundled
positivity of both dimensions. -/
structure ColorImage where
  h : ℕ
  w : ℕ
  hpos : 0 < h
  wpos : 0 < w
  px : Fin h → Fin w → Pix3

/-- Source: `cv2.cvtColor(..., cv2.COLOR_BGR2GRAY)` on one pixel:
the luminance-weighted combination Y = 0.299 R + 0.587 G + 0.114 B,
rounded to the nearest 8-bit integer. -/
def lumaBGR (p : Pix3) : ℕ :=
  (299 * p.2.2 + 587 * p.2.1 + 114 * p.1 + 500) / 1000

/-- The grayscale image `gray = cv2.cvtColor(image, cv2.COLOR_BGR2GRAY)`. -/
def grayOf (img : ColorImage) : Fin img.h → Fin img.w → ℕ :=
  fun y x => lumaBGR (img.px y x)

/-- The `skimage.filters.frangi` vesselness response, abstracted as a
parameter: a map from a grayscale image of any dimensions to a
rational-valued (floating-point in the source) response image.  No claim
depends on its internals, only on what the pipeline does with it. -/
abbrev FrangiResp := (h : ℕ) → (w : ℕ) → (Fin h → Fin w → ℕ) → Fin h → Fin w → ℚ

/-- Source: `(vessel_enhanced * 255).astype(np.uint8)`: scale the response by 255
and truncate to uint8 (numpy's float-to-uint8 cast truncates toward zero
and reduces modulo 256). -/
def scaledFrangi (fr : FrangiResp) (img : ColorImage) (y : Fin img.h) (x : Fin img.w) : ℕ :=
  (Int.toNat ⌊fr img.h img.w (grayOf img) y x * 255⌋) % 256

/-- Source: `cv2.threshold(..., 20, 255, cv2.THRESH_BINARY)`: 255 where the source
is strictly greater than the cutoff 20, else 0. -/
def vesselThresh255 (fr : FrangiResp) (img : ColorImage) (y : Fin img.h) (x : Fin img.w) : ℕ :=
  if 20 < scaledFrangi fr img y x then 255 else 0

/-- Source: `vessel_binary.astype(bool)`: a uint8 pixel maps to `true` iff it is
non-zero. -/
def vesselBoolMask (fr : FrangiResp) (img : ColorImage) (y : Fin img.h) (x : Fin img.w) : Bool :=
  vesselThresh255 fr img y x != 0

/-- 4-neighbourhood adjacency of grid positions (the default
`connectivity=1` structuring element of `ndi.label`, used by
`skimage.morphology.remove_small_objects`). -/
def adj4 {h w : ℕ} (a b : Fin h × Fin w) : Prop :=
  ((a.1 : ℕ) = (b.1 : ℕ) ∧ ((a.2 : ℕ) + 1 = (b.2 : ℕ) ∨ (b.2 : ℕ) + 1 = (a.2 : ℕ))) ∨
  ((a.2 : ℕ) = (b.2 : ℕ) ∧ ((a.1 : ℕ) + 1 = (b.1 : ℕ) ∨ (b.1 : ℕ) + 1 = (a.1 : ℕ)))

instance {h w : ℕ} : DecidableRel (@adj4 h w) := fun _ _ =>
  inferInstanceAs (Decidable (_ ∨ _))

/-- The pixel graph of a boolean mask: two grid positions are adjacent
iff both carry the mask and are 4-neighbours.  Connected components of
this graph are exactly the labelled objects of `ndi.label(mask)`. -/
def maskGraph {h w : ℕ} (mask : Fin h → Fin w → Bool) : SimpleGraph (Fin h × Fin w) where
  Adj a b := mask a.1 a.2 = true ∧ mask b.1 b.2 = true ∧ adj4 a b
  symm := by
    rintro a b ⟨ha, hb, hd⟩
    refine ⟨hb, ha, ?_⟩
    rcases hd with ⟨he, hx⟩ | ⟨he, hx⟩
    · exact Or.inl ⟨he.symm, hx.symm⟩
    · exact Or.inr ⟨he.symm, hx.symm⟩
  loopless := by
    rintro a ⟨_, _, ⟨_, hx⟩ | ⟨_, hx⟩⟩ <;> omega

instance {h w : ℕ} (mask : Fin h → Fin w → Bool) :
    DecidableRel (maskGraph mask).Adj := fun a b =>
  inferInstanceAs (Decidable (mask a.1 a.2 = true ∧ mask b.1 b.2 = true ∧ adj4 a b))

/-- The connected component of `p` in the mask: all positions reachable
from `p` through mask-carrying 4-neighbour steps. -/
def maskComponent {h w : ℕ} (mask : Fin h → Fin w → Bool) (p : Fin h × Fin w) :
    Finset (Fin h × Fin w) :=
  Finset.univ.filter fun q => (maskGraph mask).Reachable p q

/-- Source: `skimage.morphology.remove_small_objects(ar, min_size)`: a mask pixel
survives iff its connected component has at least `min_size` pixels
(components with `size < min_size` are zeroed). -/
def removeSmallObjects {h w : ℕ} (mask : Fin h → Fin w → Bool) (minSize : ℕ) :
    Fin h → Fin w → Bool :=
  fun y x => mask y x && decide (minSize ≤ (maskComponent mask (y, x)).card)

/-- Source: `remove_small_objects(vessel_binary.astype(bool), min_size=100).astype(np.uint8) * 255`. -/
def vesselBinary (fr : FrangiResp) (img : ColorImage) (y : Fin img.h) (x : Fin img.w) : ℕ :=
  if removeSmallObjects (vesselBoolMask fr img) 100 y x then 255 else 0

/-- Integer division rounding to nearest (half away from zero), as
OpenCV's fixed-point color conversions round. -/
def roundDivN (n d : ℕ) : ℕ := (2 * n + d) / (2 * d)

/-- Source: `cv2.cvtColor(..., cv2.COLOR_BGR2HSV)` on one 8-bit pixel, following
OpenCV's fixed-point 8-bit conversion: V is the channel maximum, S the
rounded scaled chroma (0 when V = 0), H the rounded hue in half-degree
units, wrapped into [0, 180). -/
def hsvOfBGR (p : Pix3) : ℕ × ℕ × ℕ :=
  let b := p.1
  let g := p.2.1
  let r := p.2.2
  let v := max b (max g r)
  let m := min b (min g r)
  let diff := v - m
  let s : ℕ := if v = 0 then 0 else roundDivN (255 * diff) v
  let hue : ℕ :=
    if diff = 0 then 0
    else if v = r then
      if b ≤ g then roundDivN (30 * (g - b)) diff
      else (180 - roundDivN (30 * (b - g)) diff) % 180
    else if v = g then
      if r ≤ b then 60 + roundDivN (30 * (b - r)) diff
      else 60 - roundDivN (30 * (r - b)) diff
    else
      if g ≤ r then 120 + roundDivN (30 * (r - g)) diff
      else 120 - roundDivN (30 * (g - r)) diff
  (hue, s, v)

/-- Source: `cv2.inRange(hsv, lo, hi)`: 255 where every HSV channel lies in the
closed range, else 0. -/
def inRangeHSV (lo hi : ℕ × ℕ × ℕ) (q : ℕ × ℕ × ℕ) : ℕ :=
  if lo.1 ≤ q.1 ∧ q.1 ≤ hi.1 ∧ lo.2.1 ≤ q.2.1 ∧ q.2.1 ≤ hi.2.1 ∧
     lo.2.2 ≤ q.2.2 ∧ q.2.2 ≤ hi.2.2 then 255 else 0

/-- Source: `red_mask1 = cv2.inRange(hsv, (0, 120, 70), (10, 255, 255))`. -/
def redMask1 (img : ColorImage) (y : Fin img.h) (x : Fin img.w) : ℕ :=
  inRangeHSV (0, 120, 70) (10, 255, 255) (hsvOfBGR (img.px y x))

/-- Source: `red_mask2 = cv2.inRange(hsv, (170, 120, 70), (180, 255, 255))`. -/
def redMask2 (img : ColorImage) (y : Fin img.h) (x : Fin img.w) : ℕ :=
  inRangeHSV (170, 120, 70) (180, 255, 255) (hsvOfBGR (img.px y x))

/-- Source: `red_areas = red_mask1 | red_mask2`: bitwise or of the two uint8 masks. -/
def redAreas (img : ColorImage) (y : Fin img.h) (x : Fin img.w) : ℕ :=
  Nat.lor (redMask1 img y x) (redMask2 img y x)

/-- Source: `damaged_areas = cv2.bitwise_and(vessel_binary, red_areas)`. -/
def damagedAreas (fr : FrangiResp) (img : ColorImage) (y : Fin img.h) (x : Fin img.w) : ℕ :=
  Nat.land (vesselBinary fr img y x) (redAreas img y x)

/-- Source: `highlighted_damage = image.copy(); highlighted_damage[damaged_areas == 255] = [0, 0, 255]`:
the copied original, with every pixel whose mask value is 255 overwritten
by pure red in BGR order. -/
def highlightedDamage (fr : FrangiResp) (img : ColorImage) (y : Fin img.h) (x : Fin img.w) : Pix3 :=
  if damagedAreas fr img y x = 255 then (0, 0, 255) else img.px y x

/-- A displayed stage: a color panel or a single-channel (mask) panel. -/
inductive StageImage (h w : ℕ)
  | color (px : Fin h → Fin w → Pix3)
  | gray (m : Fin h → Fin w → ℕ)

/-- The ordered panels Method 1 renders (`axes[0]`, `axes[1]`, `axes[2]`
with their titles): the original, then `red_areas` titled
"Detected Hemorrhage Areas", then the overlay. -/
def method1Result (fr : FrangiResp) (img : ColorImage) :
    List (String × StageImage img.h img.w) :=
  [("Original Fundus Image", StageImage.color img.px),
   ("Detected Hemorrhage Areas", StageImage.gray (redAreas img)),
   ("Blood Vessel Leakage Highlighted (Red)", StageImage.color (highlightedDamage fr img))]

/-- A packaged Method 1 pipeline result, existentially over dimensions. -/
structure Method1Out where
  h : ℕ
  w : ℕ
  stages : List (String × StageImage h w)

/-- The error OpenCV raises when `cv2.cvtColor` receives the `None`
result of a failed `cv2.imread` (an empty source matrix). -/
def cvtColorEmptyMsg : String :=
  "OpenCV error: (-215:Assertion failed) !_src.empty() in function cvtColor"

/-- Method 1 as invoked by the script: `cv2.imread` either fails (`none`)
or yields a valid color raster.  The code performs no validation of its
own; a missing image flows into the first filter stage,
`cv2.cvtColor`, which raises the library assertion. -/
def method1Run (fr : FrangiResp) (input : Option ColorImage) : Except String Method1Out :=
  match input with
  | none => Except.error cvtColorEmptyMsg
  | some img => Except.ok ⟨img.h, img.w, method1Result fr img⟩

/-- Modelled from the spec: the entry-validation behaviour §7 prescribes
for the core (absent from `app.py`): InvalidInput — input raster missing,
zero-sized, or wrong channel count — is detected once at pipeline entry
and surfaced as a descriptive error before any filter stage runs.
A missing raster is the `none` decode result; zero-sized and
wrong-channel rasters cannot be produced by the decoder model
(`ColorImage` is non-empty and 3-channel by construction). -/
def specMethod1Run (fr : FrangiResp) (input : Option ColorImage) : Except String Method1Out :=
  match input with
  | none => Except.error "InvalidInput: input raster missing, zero-sized, or wrong channel count"
  | some img => Except.ok ⟨img.h, img.w, method1Result fr img⟩

/-! ### Method 2: step-wise hemorrhage detection -/

/-- Clamp an integer coordinate into a non-empty index range
(used for sampling at image borders). -/
def clampIdx (n : ℕ) (hn : 0 < n) (i : ℤ) : Fin n :=
  ⟨min (n - 1) i.toNat, by omega⟩

/-- One bilinearly interpolated 8-bit channel: corner values `c00 c01 c10
c11`, fractional offsets `ty tx`, rounded to the nearest integer. -/
def bilinChannel (c00 c01 c10 c11 : ℕ) (ty tx : ℚ) : ℕ :=
  Int.toNat ⌊(1 - ty) * ((1 - tx) * c00 + tx * c01) +
             ty * ((1 - tx) * c10 + tx * c11) + 1 / 2⌋

/-- Source: `cv2.resize(img, (W, H))` with the default bilinear interpolation:
each destination pixel samples the source at
`(dst + 0.5) * src / dst - 0.5`, with border coordinates clamped. -/
def resizeLinear (img : ColorImage) (W H : ℕ) (hW : 0 < W) (hH : 0 < H) : ColorImage where
  h := H
  w := W
  hpos := hH
  wpos := hW
  px := fun y x =>
    let fy : ℚ := ((y : ℚ) + 1 / 2) * img.h / H - 1 / 2
    let fx : ℚ := ((x : ℚ) + 1 / 2) * img.w / W - 1 / 2
    let y0 : ℤ := ⌊fy⌋
    let x0 : ℤ := ⌊fx⌋
    let ty : ℚ := fy - y0
    let tx : ℚ := fx - x0
    let pA := img.px (clampIdx img.h img.hpos y0) (clampIdx img.w img.wpos x0)
    let pB := img.px (clampIdx img.h img.hpos y0) (clampIdx img.w img.wpos (x0 + 1))
    let pC := img.px (clampIdx img.h img.hpos (y0 + 1)) (clampIdx img.w img.wpos x0)
    let pD := img.px (clampIdx img.h img.hpos (y0 + 1)) (clampIdx img.w img.wpos (x0 + 1))
    (bilinChannel pA.1 pB.1 pC.1 pD.1 ty tx,
     bilinChannel pA.2.1 pB.2.1 pC.2.1 pD.2.1 ty tx,
     bilinChannel pA.2.2 pB.2.2 pC.2.2 pD.2.2 ty tx)

/-- Source: `resized = cv2.resize(img, (512, 512))`. -/
def originalResized (img : ColorImage) : ColorImage :=
  resizeLinear img 512 512 (by norm_num) (by norm_num)

/-- A single-channel 512×512 image, the working type of Method 2's
stages after the resize. -/
abbrev Gray512 := Fin 512 → Fin 512 → ℕ

/-- Source: `green = resized[:, :, 1]` (index 1 of a BGR pixel). -/
def greenCh (img : ColorImage) : Gray512 :=
  fun y x => ((originalResized img).px y x).2.1

/-- Source: `cv2.createCLAHE(clipLimit=2.0, tileGridSize=(8, 8)).apply`,
abstracted as a parameter: contrast-limited adaptive histogram
equalization of a 512×512 single-channel image.  No claim depends on its
internals. -/
abbrev ClaheOp := Gray512 → Gray512

/-- Source: `clahe_green = clahe.apply(green)`. -/
def claheGreen (cl : ClaheOp) (img : ColorImage) : Gray512 :=
  cl (greenCh img)

/-- Source: `complement = 255 - clahe_green` (uint8, values stay in range). -/
def complemented (cl : ClaheOp) (img : ColorImage) : Gray512 :=
  fun y x => 255 - claheGreen cl img y x

/-- The offsets of `cv2.getStructuringElement(cv2.MORPH_ELLIPSE, (5, 5))`
relative to its centre anchor. -/
def ellipse5 : List (ℤ × ℤ) :=
  [(-2, 0),
   (-1, -2), (-1, -1), (-1, 0), (-1, 1), (-1, 2),
   (0, -2), (0, -1), (0, 0), (0, 1), (0, 2),
   (1, -2), (1, -1), (1, 0), (1, 1), (1, 2),
   (2, 0)]

/-- An integer coordinate as an in-range index, or `none` when outside
the 512×512 grid. -/
def idx512 (i : ℤ) : Option (Fin 512) :=
  if hi : 0 ≤ i ∧ i < 512 then some ⟨i.toNat, by omega⟩ else none

/-- The in-bounds neighbour values of a pixel under a kernel of offsets
(out-of-bounds taps are dropped, matching OpenCV's morphology border
handling where the border never decides the min/max). -/
def nbrVals (m : Gray512) (y x : Fin 512) (ker : List (ℤ × ℤ)) : List ℕ :=
  ker.filterMap fun o =>
    match idx512 ((y : ℤ) + o.1), idx512 ((x : ℤ) + o.2) with
    | some y2, some x2 => some (m y2 x2)
    | _, _ => none

/-- Source: `cv2.erode` with the 5×5 ellipse: minimum over the kernel window
(uint8 values are at most 255, so 255 is a neutral fold seed). -/
def erode5 (m : Gray512) : Gray512 :=
  fun y x => (nbrVals m y x ellipse5).foldr min 255

/-- Source: `cv2.dilate` with the 5×5 ellipse: maximum over the kernel window. -/
def dilate5 (m : Gray512) : Gray512 :=
  fun y x => (nbrVals m y x ellipse5).foldr max 0

/-- Source: `opened = cv2.morphologyEx(complement, cv2.MORPH_OPEN, kernel)`:
erosion followed by dilation. -/
def opening5 (m : Gray512) : Gray512 :=
  dilate5 (erode5 m)

/-- The background estimate `opened` of the pipeline. -/
def openedBg (cl : ClaheOp) (img : ColorImage) : Gray512 :=
  opening5 (complemented cl img)

/-- Source: `subtracted = cv2.subtract(complement, opened)`: saturating uint8
subtraction, which truncated natural subtraction models exactly. -/
def subtractedStage (cl : ClaheOp) (img : ColorImage) : Gray512 :=
  fun y x => complemented cl img y x - openedBg cl img y x

/-- Clamp an integer coordinate to the 512×512 grid (the
`BORDER_REPLICATE` handling of `cv2.medianBlur`). -/
def clamp512 (i : ℤ) : Fin 512 :=
  ⟨min 511 i.toNat, by omega⟩

/-- The median of a 25-element sample list. -/
def median25 (l : List ℕ) : ℕ :=
  (l.mergeSort (fun a b => a ≤ b)).getD 12 0

/-- Source: `median = cv2.medianBlur(subtracted, 5)`: the median of the 5×5
window around each pixel, border replicated. -/
def medianBlur5 (m : Gray512) : Gray512 :=
  fun y x =>
    median25 (((List.range 5).map fun i =>
      (List.range 5).map fun j =>
        m (clamp512 ((y : ℤ) + i - 2)) (clamp512 ((x : ℤ) + j - 2))).flatten)

/-- Source: `median = cv2.medianBlur(...)` applied to the subtracted stage. -/
def medianStage (cl : ClaheOp) (img : ColorImage) : Gray512 :=
  medianBlur5 (subtractedStage cl img)

/-- Source: `final_sub = cv2.subtract(median, opened)`. -/
def finalSub (cl : ClaheOp) (img : ColorImage) : Gray512 :=
  fun y x => medianStage cl img y x - openedBg cl img y x

/-- Source: `exposure.rescale_intensity(final_sub, in_range=(50, 200))` on one
uint8 value: clip to [50, 200], map linearly onto [0, 255], and cast
back to uint8 (numpy truncation). -/
def rescaleIntensity50200 (v : ℕ) : ℕ :=
  Int.toNat ⌊(((min 200 (max 50 v) : ℕ) : ℚ) - 50) / 150 * 255⌋

/-- Source: `adjusted = exposure.rescale_intensity(final_sub, in_range=(50, 200))`. -/
def adjustedStage (cl : ClaheOp) (img : ColorImage) : Gray512 :=
  fun y x => rescaleIntensity50200 (finalSub cl img y x)

/-- Source: `final_complement = 255 - adjusted`. -/
def finalComplement (cl : ClaheOp) (img : ColorImage) : Gray512 :=
  fun y x => 255 - adjustedStage cl img y x

/-! `filters.threshold_local(final_complement, block_size=51, offset=10)`
with the default `method='gaussian'` smooths the image with a gaussian of
`sigma = (block_size - 1) / 6 = 25/3` (scipy truncation 4.0, so kernel
radius `int(4 * 25/3 + 0.5) = 33`, border mode reflect) and subtracts the
offset 10; `binary = final_complement > thresh` is a strict comparison.
The real-valued gaussian is stated relationally so every definition
stays computable. -/

/-- scipy's reflect border indexing (half-sample symmetric) onto the
512-pixel axis. -/
def reflect512 (t : ℤ) : Fin 512 :=
  let r := ((t % 1024) + 1024) % 1024
  if hr : r < 512 then ⟨r.toNat, by omega⟩
  else ⟨(1023 - r).toNat, by omega⟩

/-- Source: `w` is the normalized discrete gaussian kernel with `sigma = 25/3`,
radius 33, used by `threshold_local(block_size=51, method='gaussian')`. -/
def IsGaussKernel (w : ℤ → ℝ) : Prop :=
  ∀ i : ℤ, w i =
    Real.exp (-((i : ℝ) ^ 2) / (2 * ((25 : ℝ) / 3) ^ 2)) /
      ∑ j ∈ Finset.Icc (-33 : ℤ) 33,
        Real.exp (-((j : ℝ) ^ 2) / (2 * ((25 : ℝ) / 3) ^ 2))

/-- Source: `g` is the separable gaussian smoothing of the image `fc` (the
`thresh_image` that `threshold_local` computes, before the offset). -/
def IsGaussSmooth (fc : Gray512) (g : Fin 512 → Fin 512 → ℝ) : Prop :=
  ∃ w, IsGaussKernel w ∧ ∀ y x : Fin 512,
    g y x = ∑ i ∈ Finset.Icc (-33 : ℤ) 33, ∑ j ∈ Finset.Icc (-33 : ℤ) 33,
      w i * w j * (fc (reflect512 ((y : ℤ) + i)) (reflect512 ((x : ℤ) + j)) : ℝ)

/-- Source: `t` is `thresh = filters.threshold_local(fc, block_size=51, offset=10)`:
the gaussian local mean minus the offset 10. -/
def IsThreshLocal (fc : Gray512) (t : Fin 512 → Fin 512 → ℝ) : Prop :=
  ∃ g, IsGaussSmooth fc g ∧ ∀ y x : Fin 512, t y x = g y x - 10

/-- Source: `binary = final_complement > thresh` at one pixel: the strict
pixel-over-threshold comparison. -/
def binaryMask (fc : Gray512) (y x : Fin 512) : Prop :=
  ∃ t, IsThreshLocal fc t ∧ (fc y x : ℝ) > t y x

/-- Source: `binary` as a whole-image stage. -/
def binaryStage (cl : ClaheOp) (img : ColorImage) : Fin 512 → Fin 512 → Prop :=
  fun y x => binaryMask (finalComplement cl img) y x

/-- The offsets of `skimage.morphology.disk(3)`: integer points within
Euclidean distance 3 of the origin. -/
def disk3 : List (ℤ × ℤ) :=
  ((List.range 7).map fun i =>
    (List.range 7).filterMap fun j =>
      let a : ℤ := (i : ℤ) - 3
      let b : ℤ := (j : ℤ) - 3
      if a ^ 2 + b ^ 2 ≤ 9 then some (a, b) else none).flatten

/-- Source: `skimage` binary dilation with the disk(3) footprint
(`border_value = False`: out-of-bounds taps contribute nothing). -/
def binDilate3 (m : Fin 512 → Fin 512 → Prop) : Fin 512 → Fin 512 → Prop :=
  fun y x => ∃ o ∈ disk3, ∃ y2 x2 : Fin 512,
    idx512 ((y : ℤ) + o.1) = some y2 ∧ idx512 ((x : ℤ) + o.2) = some x2 ∧ m y2 x2

/-- Source: `skimage` binary erosion with the disk(3) footprint
(`border_value = True`: out-of-bounds taps count as set). -/
def binErode3 (m : Fin 512 → Fin 512 → Prop) : Fin 512 → Fin 512 → Prop :=
  fun y x => ∀ o ∈ disk3, ∀ y2 x2 : Fin 512,
    idx512 ((y : ℤ) + o.1) = some y2 → idx512 ((x : ℤ) + o.2) = some x2 → m y2 x2

/-- Source: `closed = morphology.binary_closing(binary, footprint=morphology.disk(3))`:
dilation followed by erosion. -/
def binClose3 (m : Fin 512 → Fin 512 → Prop) : Fin 512 → Fin 512 → Prop :=
  binErode3 (binDilate3 m)

/-- The closed-mask stage of Method 2. -/
def closedStage (cl : ClaheOp) (img : ColorImage) : Fin 512 → Fin 512 → Prop :=
  binClose3 (binaryStage cl img)

/-- The six panels Method 2 renders: `resized`, `clahe_green`,
`complement`, `adjusted`, `binary`, `closed`. -/
structure Method2Stages where
  originalResized : ColorImage
  claheGreen : Gray512
  complemented : Gray512
  adjusted : Gray512
  binary : Fin 512 → Fin 512 → Prop
  closed : Fin 512 → Fin 512 → Prop

/-- The whole Method 2 pipeline on a decoded color raster. -/
def method2Run (cl : ClaheOp) (img : ColorImage) : Method2Stages where
  originalResized := originalResized img
  claheGreen := claheGreen cl img
  complemented := complemented cl img
  adjusted := adjustedStage cl img
  binary := binaryStage cl img
  closed := closedStage cl img

/-! ### Concrete inputs used by witnesses and counterexamples -/

/-- A fully black 100×100 3-channel image. -/
@[reducible] def black100 : ColorImage :=
  ⟨100, 100, by norm_num, by norm_num, fun _ _ => (0, 0, 0)⟩

/-- A 1×1 image whose single pixel is pure red in BGR order. -/
@[reducible] def redOne : ColorImage :=
  ⟨1, 1, Nat.one_pos, Nat.one_pos, fun _ _ => (0, 0, 255)⟩

/-- A vesselness response that is identically zero. -/
def frZero : FrangiResp := fun _ _ _ _ _ => 0

/-- A vesselness response that is identically 20/255, so its 8-bit
scaling is exactly the threshold cutoff 20. -/
def fr20 : FrangiResp := fun _ _ _ _ _ => 20 / 255

/-! ### Helper lemmas -/

theorem inRangeHSV_cases (lo hi q : ℕ × ℕ × ℕ) :
    inRangeHSV lo hi q = 0 ∨ inRangeHSV lo hi q = 255 := by
  unfold inRangeHSV
  split
  · exact Or.inr rfl
  · exact Or.inl rfl

theorem redMask1_cases (img : ColorImage) (y : Fin img.h) (x : Fin img.w) :
    redMask1 img y x = 0 ∨ redMask1 img y x = 255 :=
  inRangeHSV_cases _ _ _

theorem redMask2_cases (img : ColorImage) (y : Fin img.h) (x : Fin img.w) :
    redMask2 img y x = 0 ∨ redMask2 img y x = 255 :=
  inRangeHSV_cases _ _ _

theorem lor_cases {a b : ℕ} (ha : a = 0 ∨ a = 255) (hb : b = 0 ∨ b = 255) :
    Nat.lor a b = 0 ∨ Nat.lor a b = 255 := by
  rcases ha with rfl | rfl <;> rcases hb with rfl | rfl <;> decide

theorem redAreas_cases (img : ColorImage) (y : Fin img.h) (x : Fin img.w) :
    redAreas img y x = 0 ∨ redAreas img y x = 255 :=
  lor_cases (redMask1_cases img y x) (redMask2_cases img y x)

theorem vesselBinary_cases (fr : FrangiResp) (img : ColorImage) (y : Fin img.h) (x : Fin img.w) :
    vesselBinary fr img y x = 0 ∨ vesselBinary fr img y x = 255 := by
  unfold vesselBinary
  split
  · exact Or.inr rfl
  · exact Or.inl rfl

theorem land_cases {a b : ℕ} (ha : a = 0 ∨ a = 255) (hb : b = 0 ∨ b = 255) :
    (Nat.land a b = 0 ∨ Nat.land a b = 255) ∧ Nat.land a b ≤ b ∧
    (Nat.land a b = 255 ↔ a = 255 ∧ b = 255) := by
  rcases ha with rfl | rfl <;> rcases hb with rfl | rfl <;> decide

theorem damagedAreas_land (fr : FrangiResp) (img : ColorImage) (y : Fin img.h) (x : Fin img.w) :
    (damagedAreas fr img y x = 0 ∨ damagedAreas fr img y x = 255) ∧
    damagedAreas fr img y x ≤ redAreas img y x ∧
    (damagedAreas fr img y x = 255 ↔
      vesselBinary fr img y x = 255 ∧ redAreas img y x = 255) :=
  land_cases (vesselBinary_cases fr img y x) (redAreas_cases img y x)

/-- The thresholded vessel mask carries a pixel iff the scaled response
strictly exceeds the cutoff 20. -/
theorem vesselBoolMask_iff (fr : FrangiResp) (img : ColorImage) (y : Fin img.h) (x : Fin img.w) :
    vesselBoolMask fr img y x = true ↔ 20 < scaledFrangi fr img y x := by
  unfold vesselBoolMask vesselThresh255
  split <;> simp_all

theorem removeSmallObjects_iff (fr : FrangiResp) (img : ColorImage)
    (y : Fin img.h) (x : Fin img.w) :
    removeSmallObjects (vesselBoolMask fr img) 100 y x = true ↔
      (20 < scaledFrangi fr img y x ∧
        100 ≤ (maskComponent (vesselBoolMask fr img) (y, x)).card) := by
  unfold removeSmallObjects
  rw [Bool.and_eq_true, decide_eq_true_eq, vesselBoolMask_iff]

/-- There is a function satisfying the gaussian-kernel specification. -/
theorem exists_gaussKernel : ∃ w, IsGaussKernel w :=
  ⟨fun i => Real.exp (-((i : ℝ) ^ 2) / (2 * ((25 : ℝ) / 3) ^ 2)) /
      ∑ j ∈ Finset.Icc (-33 : ℤ) 33,
        Real.exp (-((j : ℝ) ^ 2) / (2 * ((25 : ℝ) / 3) ^ 2)),
    fun _ => rfl⟩

/-- The normalized gaussian kernel weights sum to 1. -/
theorem isGaussKernel_sum_one {w : ℤ → ℝ} (hw : IsGaussKernel w) :
    ∑ i ∈ Finset.Icc (-33 : ℤ) 33, w i = 1 := by
  have hD : 0 < ∑ j ∈ Finset.Icc (-33 : ℤ) 33,
      Real.exp (-((j : ℝ) ^ 2) / (2 * ((25 : ℝ) / 3) ^ 2)) :=
    Finset.sum_pos (fun j _ => Real.exp_pos _)
      ⟨0, Finset.mem_Icc.mpr (by norm_num)⟩
  rw [Finset.sum_congr rfl (fun i _ => hw i), ← Finset.sum_div]
  exact div_self (ne_of_gt hD)

theorem isGaussKernel_unique {w w2 : ℤ → ℝ}
    (h1 : IsGaussKernel w) (h2 : IsGaussKernel w2) : w = w2 :=
  funext fun i => (h1 i).trans (h2 i).symm

/-- Smoothing a constant image with a normalized kernel returns the same
constant: the unique gaussian local mean of a uniform image is its value. -/
theorem isGaussSmooth_const (c : ℕ) :
    IsGaussSmooth (fun _ _ => c) (fun _ _ => (c : ℝ)) := by
  obtain ⟨w, hw⟩ := exists_gaussKernel
  refine ⟨w, hw, fun y x => ?_⟩
  have hs := isGaussKernel_sum_one hw
  show (c : ℝ) = ∑ i ∈ Finset.Icc (-33 : ℤ) 33, ∑ j ∈ Finset.Icc (-33 : ℤ) 33,
    w i * w j * (c : ℝ)
  have h1 : ∀ i : ℤ, ∑ j ∈ Finset.Icc (-33 : ℤ) 33, w i * w j * (c : ℝ) = w i * (c : ℝ) :=
    fun i =>
      calc ∑ j ∈ Finset.Icc (-33 : ℤ) 33, w i * w j * (c : ℝ)
          = ∑ j ∈ Finset.Icc (-33 : ℤ) 33, w i * (c : ℝ) * w j :=
            Finset.sum_congr rfl (fun j _ => by ring)
        _ = w i * (c : ℝ) * ∑ j ∈ Finset.Icc (-33 : ℤ) 33, w j := by
            rw [Finset.mul_sum]
        _ = w i * (c : ℝ) := by rw [hs, mul_one]
  calc (c : ℝ)
      = (∑ i ∈ Finset.Icc (-33 : ℤ) 33, w i) * (c : ℝ) := by rw [hs, one_mul]
    _ = ∑ i ∈ Finset.Icc (-33 : ℤ) 33, w i * (c : ℝ) := by rw [Finset.sum_mul]
    _ = ∑ i ∈ Finset.Icc (-33 : ℤ) 33, ∑ j ∈ Finset.Icc (-33 : ℤ) 33,
          w i * w j * (c : ℝ) := Finset.sum_congr rfl (fun i _ => (h1 i).symm)

/-- The gaussian local mean of an image is unique. -/
theorem isGaussSmooth_eq {fc : Gray512} {g g2 : Fin 512 → Fin 512 → ℝ}
    (h1 : IsGaussSmooth fc g) (h2 : IsGaussSmooth fc g2) :
    ∀ y x : Fin 512, g y x = g2 y x := by
  obtain ⟨w, hw, he⟩ := h1
  obtain ⟨w2, hw2, he2⟩ := h2
  obtain rfl := isGaussKernel_unique hw hw2
  intro y x
  rw [he y x, he2 y x]

/-! ### Claim theorems -/

/-- C1 (amended): Method 1 returns exactly three stages in the order
{original, red-lesion mask, highlighted overlay}; the second stage is the
raw red-lesion mask `red_areas` (displayed under the title "Detected
Hemorrhage Areas"), not the vessel-AND-red mask `damaged_areas`, which
enters the result only through the overlay. -/
theorem method1_three_stages (fr : FrangiResp) (img : ColorImage) :
    (method1Result fr img).length = 3 ∧
    (method1Result fr img).get? 0 =
      some ("Original Fundus Image", StageImage.color img.px) ∧
    (method1Result fr img).get? 1 =
      some ("Detected Hemorrhage Areas", StageImage.gray (redAreas img)) ∧
    (method1Result fr img).get? 2 =
      some ("Blood Vessel Leakage Highlighted (Red)",
        StageImage.color (highlightedDamage fr img)) :=
  ⟨rfl, rfl, rfl, rfl⟩

/-- C1 (counterexample): on a 1×1 pure-red image with an all-zero
vesselness response, the second displayed stage is the red-lesion mask,
whose value 255 at the pixel differs from the AND mask `damaged_areas`,
which is 0 there — so the second stage is not the AND mask the claim
asserts. -/
theorem method1_secondStage_is_redAreas_cex :
    (method1Result frZero redOne).get? 1 =
      some ("Detected Hemorrhage Areas", StageImage.gray (redAreas redOne)) ∧
    redAreas redOne 0 0 = 255 ∧ damagedAreas frZero redOne 0 0 = 0 := by
  refine ⟨rfl, by decide, ?_⟩
  have h0 : scaledFrangi frZero redOne 0 0 = 0 := by
    show Int.toNat ⌊(0 : ℚ) * 255⌋ % 256 = 0
    norm_num
  have hb : vesselBoolMask frZero redOne 0 0 = false := by
    unfold vesselBoolMask vesselThresh255
    rw [h0]
    decide
  have hv : vesselBinary frZero redOne 0 0 = 0 := by
    unfold vesselBinary removeSmallObjects
    rw [hb]
    simp
  show Nat.land (vesselBinary frZero redOne 0 0) (redAreas redOne 0 0) = 0
  rw [hv]
  exact Nat.zero_and _

/-- C2 (amended): in the adaptive local thresholding of Method 2 the
comparison against the threshold is strictly greater-than, but the
offset 10 is subtracted from the gaussian-weighted local mean
(block size 51, sigma 25/3), lowering the effective threshold below the
local mean; consequently a pixel whose intensity equals its local mean
is classified foreground (mask true), not background. -/
theorem binaryMask_strict_offset_lowered (fc : Gray512) (g : Fin 512 → Fin 512 → ℝ)
    (y x : Fin 512) (hg : IsGaussSmooth fc g) :
    (binaryMask fc y x ↔ (fc y x : ℝ) > g y x - 10) ∧
    ((fc y x : ℝ) = g y x → binaryMask fc y x) := by
  have hchar : binaryMask fc y x ↔ (fc y x : ℝ) > g y x - 10 := by
    constructor
    · rintro ⟨t, ⟨g2, hg2, ht⟩, hcmp⟩
      rw [ht y x, isGaussSmooth_eq hg2 hg y x] at hcmp
      exact hcmp
    · intro hcmp
      exact ⟨fun a b => g a b - 10, ⟨g, hg, fun _ _ => rfl⟩, hcmp⟩
  refine ⟨hchar, fun heq => hchar.mpr ?_⟩
  rw [heq]
  linarith

/-- C2 (witness): on the uniform image of intensity 200, whose gaussian
local mean at every pixel is 200, the characterization applies. -/
theorem binaryMask_strict_offset_lowered_witness :
    IsGaussSmooth (fun _ _ => 200) (fun _ _ => (200 : ℝ)) ∧
    ((binaryMask (fun _ _ => 200) 0 0 ↔ ((200 : ℕ) : ℝ) > (200 : ℝ) - 10) ∧
     (((200 : ℕ) : ℝ) = (200 : ℝ) → binaryMask (fun _ _ => 200) 0 0)) :=
  ⟨isGaussSmooth_const 200,
    binaryMask_strict_offset_lowered (fun _ _ => 200) (fun _ _ => (200 : ℝ)) 0 0
      (isGaussSmooth_const 200)⟩

/-- C2 (counterexample): on the uniform image of intensity 255 the pixel
(0,0) has intensity exactly equal to its gaussian local block mean, yet
the binary mask is true (foreground) there — refuting the claim that such
a pixel is classified background. -/
theorem binaryMask_equal_mean_foreground_cex :
    IsGaussSmooth (fun _ _ => 255) (fun _ _ => (255 : ℝ)) ∧
    (((255 : ℕ) : ℝ) = (255 : ℝ)) ∧
    binaryMask (fun _ _ => 255) 0 0 := by
  refine ⟨isGaussSmooth_const 255, by norm_num, ?_⟩
  refine ⟨fun a b => (245 : ℝ), ⟨fun _ _ => (255 : ℝ), isGaussSmooth_const 255,
    fun _ _ => by norm_num⟩, ?_⟩
  show ((255 : ℕ) : ℝ) > 245
  norm_num

/-- C3 (amended): the code performs no entry validation: a missing input
(failed `cv2.imread`) surfaces as the OpenCV assertion raised inside the
first filter stage, `cv2.cvtColor`, with no partial results; every
successfully decoded raster yields the full three-stage result. -/
theorem method1Run_error_behaviour (fr : FrangiResp) (img : ColorImage) :
    method1Run fr none = Except.error cvtColorEmptyMsg ∧
    method1Run fr (some img) =
      Except.ok ⟨img.h, img.w, method1Result fr img⟩ :=
  ⟨rfl, rfl⟩

/-- C3 (counterexample): on the missing input the code's behaviour
differs from the spec-modelled entry validation — the surfaced error is
the cvtColor library assertion, not a descriptive InvalidInput
validation error raised before the filter stages. -/
theorem method1Run_no_entry_validation_cex :
    method1Run frZero none ≠ specMethod1Run frZero none ∧
    method1Run frZero none = Except.error cvtColorEmptyMsg := by
  refine ⟨fun h => ?_, rfl⟩
  have h2 : cvtColorEmptyMsg =
      "InvalidInput: input raster missing, zero-sized, or wrong channel count" := by
    injection h
  exact absurd h2 (by decide)

/-- C4: the Method 1 hemorrhage mask `damaged_areas` is a subset of the
red-lesion mask `red_areas`: pointwise it never exceeds it, and it is set
(255) exactly when both the vessel mask and the red mask are set — the
AND can only remove, never add, positive pixels. -/
theorem damagedAreas_subset_redAreas (fr : FrangiResp) (img : ColorImage)
    (y : Fin img.h) (x : Fin img.w) :
    damagedAreas fr img y x ≤ redAreas img y x ∧
    (damagedAreas fr img y x = 255 ↔
      vesselBinary fr img y x = 255 ∧ redAreas img y x = 255) :=
  ⟨(damagedAreas_land fr img y x).2.1, (damagedAreas_land fr img y x).2.2⟩

/-- C5: the Method 1 overlay equals the original image at every pixel
where the hemorrhage mask is not set (its uint8 value there is 0, the
mask being {0,255}-valued) and equals pure red BGR (0,0,255) at every
pixel where it is set. -/
theorem highlightedDamage_frame (fr : FrangiResp) (img : ColorImage)
    (y : Fin img.h) (x : Fin img.w) :
    (damagedAreas fr img y x = 0 ∨ damagedAreas fr img y x = 255) ∧
    highlightedDamage fr img y x =
      (if damagedAreas fr img y x = 0 then img.px y x else (0, 0, 255)) := by
  have h01 := (damagedAreas_land fr img y x).1
  refine ⟨h01, ?_⟩
  unfold highlightedDamage
  rcases h01 with h | h <;> rw [h] <;> norm_num

/-- C6: the `original_resized` stage of Method 2 measures exactly
512×512 for every decoded input image, of any positive dimensions. -/
theorem method2_resized_is_512 (cl : ClaheOp) (img : ColorImage) :
    (method2Run cl img).originalResized.h = 512 ∧
    (method2Run cl img).originalResized.w = 512 :=
  ⟨rfl, rfl⟩

/-- C7: the Method 1 binary vessel mask is set (255) at a pixel exactly
when its 8-bit-scaled vesselness response strictly exceeds the cutoff 20
and the pixel's connected component in the thresholded mask has at least
100 pixels; it is cleared (0) exactly when the response fails the cutoff
or the component has fewer than 100 pixels. -/
theorem vesselBinary_char (fr : FrangiResp) (img : ColorImage)
    (y : Fin img.h) (x : Fin img.w) :
    (vesselBinary fr img y x = 255 ↔
      (20 < scaledFrangi fr img y x ∧
        100 ≤ (maskComponent (vesselBoolMask fr img) (y, x)).card)) ∧
    (vesselBinary fr img y x = 0 ↔
      (scaledFrangi fr img y x ≤ 20 ∨
        (maskComponent (vesselBoolMask fr img) (y, x)).card < 100)) := by
  constructor
  · unfold vesselBinary
    split
    case isTrue hc => exact iff_of_true rfl ((removeSmallObjects_iff fr img y x).mp hc)
    case isFalse hc =>
      exact iff_of_false (by decide)
        (fun hcontra => hc ((removeSmallObjects_iff fr img y x).mpr hcontra))
  · unfold vesselBinary
    split
    case isTrue hc =>
      have hb := (removeSmallObjects_iff fr img y x).mp hc
      refine iff_of_false (by decide) ?_
      rintro (hd | hd) <;> omega
    case isFalse hc =>
      refine iff_of_true rfl ?_
      by_cases h1 : 20 < scaledFrangi fr img y x
      · by_cases h2 : 100 ≤ (maskComponent (vesselBoolMask fr img) (y, x)).card
        · exact absurd ((removeSmallObjects_iff fr img y x).mpr ⟨h1, h2⟩) hc
        · exact Or.inr (by omega)
      · exact Or.inl (by omega)

/-- C8: on the fully black 100×100 image the red-lesion mask is all
zero (no pixel reaches minimum saturation 120 and value 70), hence the
hemorrhage mask is all zero too, and Method 1 still returns its full
result rather than an error. -/
theorem allBlack_empty_masks (fr : FrangiResp) (y x : Fin 100) :
    redAreas black100 y x = 0 ∧ damagedAreas fr black100 y x = 0 ∧
    method1Run fr (some black100) =
      Except.ok ⟨100, 100, method1Result fr black100⟩ := by
  have hred : redAreas black100 y x = 0 := by
    show Nat.lor (inRangeHSV (0, 120, 70) (10, 255, 255) (hsvOfBGR (0, 0, 0)))
      (inRangeHSV (170, 120, 70) (180, 255, 255) (hsvOfBGR (0, 0, 0))) = 0
    decide
  refine ⟨hred, ?_, rfl⟩
  show Nat.land (vesselBinary fr black100 y x) (redAreas black100 y x) = 0
  rw [hred]
  exact Nat.and_zero _

/-- C9: both pipelines are deterministic — runs on equal inputs produce
equal stage outputs (the embedding is pure: the code seeds no randomness
and reads no hidden state). -/
theorem pipelines_deterministic (fr : FrangiResp) (cl : ClaheOp)
    (i1 i2 : Option ColorImage) (a1 a2 : ColorImage)
    (hi : i1 = i2) (ha : a1 = a2) :
    method1Run fr i1 = method1Run fr i2 ∧ method2Run cl a1 = method2Run cl a2 := by
  subst hi
  subst ha
  exact ⟨rfl, rfl⟩

/-- C9 (witness): two runs of each pipeline on the same concrete input. -/
theorem pipelines_deterministic_witness :
    method1Run frZero (some redOne) = method1Run frZero (some redOne) ∧
    method2Run (fun g => g) redOne = method2Run (fun g => g) redOne :=
  pipelines_deterministic frZero (fun g => g) (some redOne) (some redOne)
    redOne redOne rfl rfl

/-- C10: the vessel-mask cutoff is strict — a pixel whose 8-bit-scaled
vesselness response equals exactly 20 is excluded from the thresholded
mask and from the final vessel mask. -/
theorem scaledFrangi_eq20_excluded (fr : FrangiResp) (img : ColorImage)
    (y : Fin img.h) (x : Fin img.w) (h20 : scaledFrangi fr img y x = 20) :
    vesselBoolMask fr img y x = false ∧ vesselBinary fr img y x = 0 := by
  have hb : vesselBoolMask fr img y x = false := by
    unfold vesselBoolMask vesselThresh255
    rw [h20]
    decide
  refine ⟨hb, ?_⟩
  unfold vesselBinary removeSmallObjects
  rw [hb]
  simp

/-- C10 (witness): on the 1×1 image with the constant response 20/255,
the scaled response is exactly 20 and the pixel is excluded. -/
theorem scaledFrangi_eq20_excluded_witness :
    scaledFrangi fr20 redOne 0 0 = 20 ∧
    (vesselBoolMask fr20 redOne 0 0 = false ∧ vesselBinary fr20 redOne 0 0 = 0) := by
  have h20 : scaledFrangi fr20 redOne 0 0 = 20 := by
    show Int.toNat ⌊(20 / 255 : ℚ) * 255⌋ % 256 = 20
    norm_num
    decide
  exact ⟨h20, scaledFrangi_eq20_excluded fr20 redOne 0 0 h20⟩

end HemDetect
